import Mathlib

/-!
# Owned-Series Reconciliation Service — verification development

Shallow embedding of the owned-series reconciliation service of the ingester
(`pkg/ingester`).  The repository ships only the Go tests of this service
(`TestOwnedSeriesService`, `TestOwnedSeriesRingChanged`,
`TestOwnedSeriesLimiting`); the service implementation itself
(`owned_series.go`: `ownedSeriesService`, `updateAllTenants`,
`checkRingForChanges`, the recompute-reason registry, and the limiter
coupling) is not part of the source tree.  Those operations are therefore
modelled from the specification, with the behaviour pinned down by the tests
wherever the tests constrain it.
-/

namespace OwnedSeries

/-- Recompute reasons.  Modelled from the spec: the reason constants
(`recomputeOwnedSeriesReasonNewUser`, …) are referenced by the tests but
declared in `owned_series.go`, which is missing from the source tree.
Priority order (spec §4.3): `new_user > early_compaction > compaction >
shard_size_changed > ring_changed`. -/
inductive Reason where
  | newUser
  | earlyCompaction
  | compaction
  | shardSizeChanged
  | ringChanged
deriving DecidableEq, Repr

/-- Reason used when a tenant is first created (source name
`recomputeOwnedSeriesReasonNewUser`). -/
def recomputeOwnedSeriesReasonNewUser : Reason := .newUser

/-- Reason used after an early compaction. -/
def recomputeOwnedSeriesReasonEarlyCompaction : Reason := .earlyCompaction

/-- Reason used after a compaction. -/
def recomputeOwnedSeriesReasonCompaction : Reason := .compaction

/-- Reason used when the tenant's configured shard size changed. -/
def recomputeOwnedSeriesReasonShardSizeChanged : Reason := .shardSizeChanged

/-- Reason used when the ring changed. -/
def recomputeOwnedSeriesReasonRingChanged : Reason := .ringChanged

/-- Numeric priority of a reason, highest first (spec §4.3). -/
def priority : Reason → Nat
  | .newUser => 5
  | .earlyCompaction => 4
  | .compaction => 3
  | .shardSizeChanged => 2
  | .ringChanged => 1

/-- Modelled from the spec (§4.3): `set_reason` on the per-tenant trigger
registry.  `none` is the empty reason.  An empty slot takes the new reason; a
strictly higher-priority reason overwrites; otherwise the stored reason is
kept. -/
def setReason : Option Reason → Reason → Option Reason
  | none, r => some r
  | some cur, r => if priority cur < priority r then some r else some cur

/-- Modelled from the spec (§4.3): `clear(tenant)` unconditionally empties the
stored reason. -/
def clearReason : Option Reason → Option Reason := fun _ => none

/-- Ring instance states (dskit `ring.InstanceState`). -/
inductive InstState where
  | ACTIVE
  | LEAVING
  | JOINING
  | PENDING
deriving DecidableEq, Repr

/-- One entry of a ring snapshot: `{instance_id, zone, address, tokens, state}`
(spec §3). -/
structure Instance where
  id : String
  zone : String
  addr : String
  tokens : List Nat
  state : InstState
deriving DecidableEq, Repr

/-- A ring snapshot: the set of registered instances. -/
abbrev RingDesc := List Instance

/-- `ring.Desc.AddIngester`: inserts an instance, replacing any existing entry
with the same id (the Go descriptor keys instances by id). -/
def addIngester (r : RingDesc) (i : Instance) : RingDesc :=
  i :: r.filter (fun j => j.id ≠ i.id)

/-- `ring.Desc.RemoveIngester`: removes the instance with the given id. -/
def removeIngester (r : RingDesc) (id : String) : RingDesc :=
  r.filter (fun j => j.id ≠ id)

/-- The *relevant projection* of a ring snapshot (spec §4.1): the set of
`(instance_id, zone, sorted_tokens)` triples.  Sets are modelled as
multisets, so token order and instance order are irrelevant, while heartbeat
timestamps, addresses and instance states are dropped. -/
def relevantProjection (r : RingDesc) : Multiset (String × String × Multiset Nat) :=
  ((r.map (fun i => (i.id, i.zone, (i.tokens : Multiset Nat)))) : Multiset _)

/-- Ring Change Detector state: the cached projection of the last-seen ring;
`none` before the first check (spec §4.1). -/
structure Detector where
  cached : Option (Multiset (String × String × Multiset Nat))
deriving DecidableEq

/-- Modelled from the spec (§4.1): `ownedSeriesService.checkRingForChanges`
(not under src/; only its tests are).  Returns `true` unconditionally on the
first call; afterwards compares the relevant projection against the cache,
updating the cache only on inequality. -/
def checkRingForChanges (d : Detector) (r : RingDesc) : Bool × Detector :=
  let proj := relevantProjection r
  match d.cached with
  | none => (true, ⟨some proj⟩)
  | some c => if proj = c then (false, d) else (true, ⟨some proj⟩)

/-- All `(token, owner id)` pairs of a ring snapshot. -/
def ringTokens (r : RingDesc) : List (Nat × String) :=
  r.foldr (fun i acc => i.tokens.map (fun t => (t, i.id)) ++ acc) []

/-- The entry with the minimal token of a token list; ties between identical
tokens are broken by lexicographic instance id (spec §4.2 determinism
requirements). -/
def minTokenEntry (l : List (Nat × String)) : Option (Nat × String) :=
  l.foldl
    (fun acc e =>
      match acc with
      | none => some e
      | some b => if e.1 < b.1 ∨ (e.1 = b.1 ∧ e.2 < b.2) then some e else some b)
    none

/-- Owner of a token: walk the ring clockwise from `t` to the first token
strictly greater than `t`; wrap around to the globally smallest token when no
greater token exists (spec §4.2 step 4). -/
def ringOwner (toks : List (Nat × String)) (t : Nat) : Option String :=
  match minTokenEntry (toks.filter (fun e => t < e.1)) with
  | some e => some e.2
  | none => (minTokenEntry toks).map (fun e => e.2)

/-- Number of distinct zones present in the ring. -/
def zonesCount (r : RingDesc) : Nat :=
  (r.map (fun i => i.zone)).dedup.length

/-- Number of ring instances registered in the given zone. -/
def zoneIngesterCount (r : RingDesc) (z : String) : Nat :=
  (r.filter (fun i => i.zone = z)).length

/-- Configured shard size rounded up to a per-zone count (spec §4.2 step 1:
"rounded up to a multiple of the number of zones when zone-awareness is
on"). -/
def perZoneShardSize (cfg zones : Nat) : Nat :=
  (cfg + zones - 1) / zones

/-- Modelled from the spec (§4.2 step 1, §3): the effective shard size stored
as `shard_size_snapshot` by a recomputation.  `0` (no explicit limit) is kept
as `0`; otherwise the per-zone configured size, clamped to the number of
ingesters actually present in this ingester's zone. -/
def effectiveShardSize (cfg zones zoneIngesters : Nat) : Nat :=
  if cfg = 0 then 0 else min (perZoneShardSize cfg zones) zoneIngesters

/-- Modelled from the spec (§4.2 step 2): shuffle-shard selection, a pure
function external to the service.  `draws` is the stable pseudo-random token
sequence seeded from `(tenant, zone)`; each draw selects the ring owner of
that token, skipping owners that are already members, until `n` distinct
members are collected. -/
def selectShard (toks : List (Nat × String)) : List Nat → Nat → List String → List String
  | _, 0, acc => acc.reverse
  | [], _, acc => acc.reverse
  | d :: ds, n + 1, acc =>
    match ringOwner toks d with
    | none => acc.reverse
    | some id =>
      if id ∈ acc then selectShard toks ds (n + 1) acc
      else selectShard toks ds n (id :: acc)

/-- Modelled from the spec (§4.2 steps 1–2): the tenant's shuffle-shard subset
within this ingester's zone.  Shard size `0`, or a per-zone size at least the
number of instances in the zone, selects every instance of the zone. -/
def shuffleShard (r : RingDesc) (zone : String) (cfg zones : Nat) (draws : List Nat) :
    List String :=
  let zinst := r.filter (fun i => i.zone = zone)
  let n := perZoneShardSize cfg zones
  if cfg = 0 ∨ zinst.length ≤ n then zinst.map (fun i => i.id)
  else selectShard (ringTokens zinst) draws n []

/-- Tokens of the subring formed by the shard members. -/
def subringTokens (r : RingDesc) (shard : List String) : List (Nat × String) :=
  ringTokens (r.filter (fun i => i.id ∈ shard))

/-- Modelled from the spec (§4.2 steps 3–4): owned-series count.  An ingester
outside the shard owns nothing; otherwise a series is owned iff the clockwise
ring walk from its token, restricted to shard members' tokens, lands on this
ingester. -/
def ownedCountOf (r : RingDesc) (shard : List String) (thisId : String)
    (seriesTokens : List Nat) : Nat :=
  if thisId ∈ shard then
    (seriesTokens.filter (fun t => ringOwner (subringTokens r shard) t = some thisId)).length
  else 0

/-- Per-tenant scalars guarded by the tenant lock (spec §3): owned count,
shard-size snapshot, pending recompute reason (`none` = empty). -/
structure TenantState where
  ownedCount : Nat
  shardSizeSnapshot : Nat
  reason : Option Reason
deriving DecidableEq, Repr

/-- Modelled from the spec (§3 Lifecycle): the tenant entry created on the
tenant's first write — reason `new_user`, every head series provisionally
owned, shard-size snapshot `0`. -/
def createTenantEntry (headSeriesCount : Nat) : TenantState :=
  { ownedCount := headSeriesCount, shardSizeSnapshot := 0, reason := some .newUser }

/-- The environment a reconciliation pass runs against: the current ring, this
ingester's identity, and the per-tenant configuration and head-series
snapshot. -/
structure Env where
  ring : RingDesc
  thisId : String
  thisZone : String
  cfg : String → Nat
  seriesTokens : String → List Nat
  draws : String → List Nat
  globalLimit : String → Nat

/-- The effective shard size the recomputer would store for a tenant under the
current ring. -/
def effSnap (env : Env) (uid : String) : Nat :=
  effectiveShardSize (env.cfg uid) (zonesCount env.ring) (zoneIngesterCount env.ring env.thisZone)

/-- Modelled from the spec (§4.2): `ownedSeriesService.recomputeOwnedSeries`
for one tenant — the owned count and the effective shard size against the
current ring. -/
def recomputeOwnedSeries (env : Env) (uid : String) : Nat × Nat :=
  (ownedCountOf env.ring
      (shuffleShard env.ring env.thisZone (env.cfg uid) (zonesCount env.ring) (env.draws uid))
      env.thisId (env.seriesTokens uid),
    effSnap env uid)

/-- The reason a driver pass processes a tenant with (spec §4.4 steps 3–4,
§4.5): the stored reason if any; else `ring_changed` when the detector
confirmed a ring change; else `shard_size_changed` when the configured shard
size no longer matches the stored snapshot; else nothing. -/
def pendingReason (env : Env) (ringChanged : Bool) (uid : String) (ts : TenantState) :
    Option Reason :=
  match ts.reason with
  | some r => some r
  | none =>
    if ringChanged then some .ringChanged
    else if effSnap env uid ≠ ts.shardSizeSnapshot then some .shardSizeChanged
    else none

/-- One driver step for one tenant: recompute and clear the reason when a
pending reason exists, otherwise leave the tenant untouched. -/
def stepTenant (env : Env) (ringChanged : Bool) (p : String × TenantState) :
    String × TenantState :=
  match pendingReason env ringChanged p.1 p.2 with
  | none => p
  | some _ =>
    (p.1,
      { ownedCount := (recomputeOwnedSeries env p.1).1,
        shardSizeSnapshot := (recomputeOwnedSeries env p.1).2,
        reason := none })

/-- Whether a driver pass recomputes the tenant. -/
def tenantProcessed (env : Env) (ringChanged : Bool) (p : String × TenantState) : Bool :=
  (pendingReason env ringChanged p.1 p.2).isSome

/-- Service state: the per-tenant entries and the ring-change detector. -/
structure ServiceState where
  tenants : List (String × TenantState)
  detector : Detector
deriving DecidableEq

/-- Result of one driver pass: the number of recomputed tenants, the reasons
logged for them, and the new service state. -/
structure PassResult where
  count : Nat
  log : List (String × Reason)
  state : ServiceState
deriving DecidableEq

/-- Modelled from the spec (§4.4) and the tests:
`ownedSeriesService.updateAllTenants(ctx, ringChanged)` (not under src/; only
its tests are).  The tests pin down that the Ring Change Detector is consulted
only when the `ringChanged` hint is true (`TestOwnedSeriesService` subtests
"no ring change after adding ingester" and "change tenant shard size from 2 to
1..."), so a false hint leaves the detector untouched and triggers no
ring-based recomputation; a true hint is advisory and is downgraded when the
detector reports no relevant change. -/
def updateAllTenants (env : Env) (ringChangedHint : Bool) (s : ServiceState) : PassResult :=
  let rcd :=
    if ringChangedHint then checkRingForChanges s.detector env.ring
    else (false, s.detector)
  { count := (s.tenants.filter (tenantProcessed env rcd.1)).length,
    log := s.tenants.filterMap
      (fun p => (pendingReason env rcd.1 p.1 p.2).map (fun r => (p.1, r))),
    state := ⟨s.tenants.map (stepTenant env rcd.1), rcd.2⟩ }

/-- Modelled from the spec (§4.6): `local_series_limit` (the limiter's
`maxSeriesPerUser` path gated by `UseIngesterOwnedSeriesForLimits`, not under
src/).  `ceil(global / max(1, snapshot))` when the snapshot is positive, else
`global / max(1, ingesters in this ingester's zone)`. -/
def localSeriesLimit (globalLimit snap zoneIngesters : Nat) : Nat :=
  if 0 < snap then (globalLimit + snap - 1) / snap
  else globalLimit / max 1 zoneIngesters

/-- The local series limit the write path would observe for a tenant in a given
service state (spec §4.6): a non-blocking read of the stored snapshot. -/
def tenantLocalLimit (env : Env) (s : ServiceState) (uid : String) : Nat :=
  match s.tenants.lookup uid with
  | some ts =>
    localSeriesLimit (env.globalLimit uid) ts.shardSizeSnapshot
      (zoneIngesterCount env.ring env.thisZone)
  | none =>
    localSeriesLimit (env.globalLimit uid) 0 (zoneIngesterCount env.ring env.thisZone)

/-!
## Concrete scenario data

Mirrors `TestOwnedSeriesService`: ten series; the tested ingester holds
tokens just above the first five series tokens plus the tenant's second
shuffle-shard anchor (skip = 1); the second ingester holds tokens just above
the last five series tokens plus the first anchor (skip = 0); both are in the
single zone `"zone"`.
-/

/-- Tokens of the ten test series (`ownedServiceSeriesCount = 10`). -/
def testSeriesTokens : List Nat := [10, 20, 30, 40, 50, 60, 70, 80, 90, 100]

/-- The tenant's shuffle-shard token draw with skip 0 (`userToken(user, zone, 0)`). -/
def userAnchor0 : Nat := 2000

/-- The tenant's shuffle-shard token draw with skip 1 (`userToken(user, zone, 1)`). -/
def userAnchor1 : Nat := 1000

/-- The tested ingester, registered with tokens covering series 0..4 plus the
skip-1 anchor (`registerTestedIngesterIntoRing`). -/
def firstIngester : Instance :=
  ⟨"first-ingester", "zone", "addrA", [11, 21, 31, 41, 51, 1001], .ACTIVE⟩

/-- The second ingester, owning the second half of the series tokens plus the
skip-0 anchor (`registerSecondIngesterOwningHalfOfTheTokens`). -/
def secondIngester : Instance :=
  ⟨"second-ingester", "zone", "localhost", [61, 71, 81, 91, 101, 2001], .ACTIVE⟩

/-- The ring holding both test ingesters. -/
def ringBoth : RingDesc := addIngester [firstIngester] secondIngester

/-- Environment of `TestOwnedSeriesService` for a given ring and tenant shard
size: the tested ingester in zone `"zone"`, ten series, global limit 10000. -/
def testEnv (r : RingDesc) (shardSize : Nat) : Env :=
  { ring := r, thisId := "first-ingester", thisZone := "zone",
    cfg := fun _ => shardSize, seriesTokens := fun _ => testSeriesTokens,
    draws := fun _ => [userAnchor0, userAnchor1], globalLimit := fun _ => 10000 }

/-- Service state right after `test-user` pushed its ten series: the entry the
first write creates, fresh detector. -/
def initState : ServiceState := ⟨[("test-user", createTenantEntry 10)], ⟨none⟩⟩

/-!
## Concrete limiter scenario data

Mirrors `TestOwnedSeriesLimiting`, "multi zone, shards > ingesters": three
zones of three ingesters each, the tested ingester `ingester-1-0` in
`zone-1`, tenant shard size 15 (5 per zone), global series limit 10 000.
-/

/-- An ingester of the limiter scenario: one token, `ACTIVE`. -/
def mkZonalInstance (id z : String) (tok : Nat) : Instance :=
  ⟨id, z, "localhost", [tok], .ACTIVE⟩

/-- The starting ring: three zones, three ingesters per zone. -/
def ringNine : RingDesc :=
  [mkZonalInstance "ingester-1-0" "zone-1" 0, mkZonalInstance "ingester-1-1" "zone-1" 1,
   mkZonalInstance "ingester-1-2" "zone-1" 2, mkZonalInstance "ingester-2-0" "zone-2" 0,
   mkZonalInstance "ingester-2-1" "zone-2" 1, mkZonalInstance "ingester-2-2" "zone-2" 2,
   mkZonalInstance "ingester-3-0" "zone-3" 0, mkZonalInstance "ingester-3-1" "zone-3" 1,
   mkZonalInstance "ingester-3-2" "zone-3" 2]

/-- The ring after zone-1 is scaled up to five ingesters. -/
def ringScaledUp : RingDesc :=
  addIngester (addIngester ringNine (mkZonalInstance "ingester-1-3" "zone-1" 3))
    (mkZonalInstance "ingester-1-4" "zone-1" 4)

/-- The ring after zone-1 is scaled back down to one ingester (the tested
one). -/
def ringScaledDown : RingDesc :=
  removeIngester (removeIngester (removeIngester (removeIngester ringScaledUp
    "ingester-1-4") "ingester-1-3") "ingester-1-2") "ingester-1-1"

/-- Environment of the limiter scenario for a given ring. -/
def limitEnv (r : RingDesc) : Env :=
  { ring := r, thisId := "ingester-1-0", thisZone := "zone-1",
    cfg := fun _ => 15, seriesTokens := fun _ => [500],
    draws := fun _ => [0, 1, 2, 3, 4, 5], globalLimit := fun _ => 10000 }

/-- Limiter-scenario state after the tenant's first write (one series). -/
def limitState0 : ServiceState := ⟨[("test-user", createTenantEntry 1)], ⟨none⟩⟩

/-- Service state after the driver processed the `new_user` reason with only
the tested ingester in the ring. -/
def stateAfterNewUserPass : ServiceState :=
  (updateAllTenants (testEnv [firstIngester] 0) false initState).state

/-- Service state after a pass with shard size 1 ran against the two-ingester
ring: the other ingester is the sole shard member. -/
def stateAfterShard1Pass : ServiceState :=
  (updateAllTenants (testEnv ringBoth 1) true initState).state

/-- The two-ingester ring after the second ingester is unregistered. -/
def ringOnlyFirst : RingDesc := removeIngester ringBoth "second-ingester"

/-!
## Theorems
-/

/-- Along any `set_reason` run starting from a stored reason, the stored value
is a maximum-priority element of the start value and the run. -/
theorem foldl_setReason_max (rs : List Reason) :
    ∀ cur : Reason,
      ∃ m, List.foldl setReason (some cur) rs = some m ∧ m ∈ cur :: rs ∧
        priority cur ≤ priority m ∧ ∀ x ∈ rs, priority x ≤ priority m := by
  induction rs with
  | nil =>
    intro cur
    exact ⟨cur, rfl, by simp, Nat.le_refl _, by simp⟩
  | cons r rs ih =>
    intro cur
    simp only [List.foldl_cons]
    by_cases h : priority cur < priority r
    · have hs : setReason (some cur) r = some r := by simp [setReason, h]
      rw [hs]
      obtain ⟨m, hm, hmem, hle, hall⟩ := ih r
      refine ⟨m, hm, ?_, Nat.le_trans (Nat.le_of_lt h) hle, ?_⟩
      · simp only [List.mem_cons] at hmem ⊢
        tauto
      · intro x hx
        rcases List.mem_cons.mp hx with hx | hx
        · subst hx; exact hle
        · exact hall x hx
    · have hs : setReason (some cur) r = some cur := by simp [setReason, h]
      rw [hs]
      obtain ⟨m, hm, hmem, hle, hall⟩ := ih cur
      refine ⟨m, hm, ?_, hle, ?_⟩
      · simp only [List.mem_cons] at hmem ⊢
        tauto
      · intro x hx
        rcases List.mem_cons.mp hx with hx | hx
        · subst hx
          exact Nat.le_trans (Nat.le_of_not_lt h) hle
        · exact hall x hx

/-- C3: for any sequence of `set_reason(tenant, r)` calls since the most
recent `clear(tenant)`, the stored recompute reason equals a highest-priority
reason of that sequence under the order `new_user > early_compaction >
compaction > shard_size_changed > ring_changed`; in particular a `set_reason`
call whose reason has lower priority than the currently stored reason leaves
the stored reason unchanged. -/
theorem setReason_priority_C3 :
    (∀ (prev : Option Reason) (r : Reason) (rs : List Reason),
      ∃ m, List.foldl setReason (clearReason prev) (r :: rs) = some m ∧
        m ∈ r :: rs ∧ ∀ x ∈ r :: rs, priority x ≤ priority m) ∧
    (∀ cur next : Reason, priority next < priority cur →
      setReason (some cur) next = some cur) := by
  constructor
  · intro prev r rs
    show ∃ m, List.foldl setReason none (r :: rs) = some m ∧ _
    simp only [List.foldl_cons]
    have h0 : setReason none r = some r := rfl
    rw [h0]
    obtain ⟨m, hm, hmem, hle, hall⟩ := foldl_setReason_max rs r
    refine ⟨m, hm, hmem, ?_⟩
    intro x hx
    rcases List.mem_cons.mp hx with hx | hx
    · subst hx; exact hle
    · exact hall x hx
  · intro cur next h
    simp [setReason, Nat.lt_asymm h]

/-- Witness for `setReason_priority_C3`: a `ring_changed` write after a stored
`new_user` is a no-op. -/
theorem setReason_priority_C3_witness :
    priority .ringChanged < priority .newUser ∧
      setReason (some .newUser) .ringChanged = some Reason.newUser :=
  ⟨by decide, setReason_priority_C3.2 Reason.newUser Reason.ringChanged (by decide)⟩

/-- C8: `checkRingForChanges` returns `true` on its very first invocation
after construction, regardless of ring contents, and the immediately
following call on the same ring returns `false`. -/
theorem checkRingForChanges_first_call_C8 :
    ∀ r : RingDesc,
      (checkRingForChanges ⟨none⟩ r).1 = true ∧
        (checkRingForChanges (checkRingForChanges ⟨none⟩ r).2 r).1 = false := by
  intro r
  refine ⟨rfl, ?_⟩
  simp [checkRingForChanges]

/-- C5: the tenant entry created on the first write carries reason
`new_user`, provisionally owns every head series, and has shard-size snapshot
`0`; the next driver pass (single ingester still owning everything, shard
size 0) returns 1, clears the reason, and leaves owned count and snapshot at
`head_series.size` and `0`. -/
theorem newTenant_lifecycle_C5 :
    (∀ n : Nat,
      (createTenantEntry n).reason = some recomputeOwnedSeriesReasonNewUser ∧
        (createTenantEntry n).ownedCount = n ∧
        (createTenantEntry n).shardSizeSnapshot = 0) ∧
    (updateAllTenants (testEnv [firstIngester] 0) false initState).count = 1 ∧
    (updateAllTenants (testEnv [firstIngester] 0) false initState).log
      = [("test-user", Reason.newUser)] ∧
    (updateAllTenants (testEnv [firstIngester] 0) false initState).state.tenants
      = [("test-user", ⟨10, 0, none⟩)] := by
  exact ⟨fun n => ⟨rfl, rfl, rfl⟩, by decide, by decide, by decide⟩

/-- C4: with ten series all owned and shard size 0, after the second ingester
joins (owning the second-half tokens and the skip-0 anchor) a pass with
`ring_changed_hint = true` returns 1 with reason `ring_changed`, clears the
tenant's reason, and recomputes the owned count to 5 — exactly the series
whose tokens the clockwise ring walk maps to the tested ingester. -/
theorem ringChange_recompute_C4 :
    (updateAllTenants (testEnv ringBoth 0) true stateAfterNewUserPass).count = 1 ∧
    (updateAllTenants (testEnv ringBoth 0) true stateAfterNewUserPass).log
      = [("test-user", Reason.ringChanged)] ∧
    (updateAllTenants (testEnv ringBoth 0) true stateAfterNewUserPass).state.tenants
      = [("test-user", ⟨5, 0, none⟩)] ∧
    testSeriesTokens.filter (fun t =>
        ringOwner (subringTokens ringBoth (shuffleShard ringBoth "zone" 0
          (zonesCount ringBoth) [userAnchor0, userAnchor1])) t = some "first-ingester")
      = [10, 20, 30, 40, 50] := by
  exact ⟨by decide, by decide, by decide, by decide⟩

/-- C10: with shard size 1 the other ingester is the sole shard member and the
tested ingester owns 0 series; after that ingester is removed from the ring, a
pass with `ring_changed_hint = true` returns 1 with reason `ring_changed` and
recomputes the owned count to the full head-series count, while the snapshot
stays 1 — shard membership is re-derived from the current ring although the
configured shard size is unchanged. -/
theorem shard_rederived_after_removal_C10 :
    (updateAllTenants (testEnv ringBoth 1) true initState).state.tenants
      = [("test-user", ⟨0, 1, none⟩)] ∧
    (updateAllTenants (testEnv ringOnlyFirst 1) true stateAfterShard1Pass).count = 1 ∧
    (updateAllTenants (testEnv ringOnlyFirst 1) true stateAfterShard1Pass).log
      = [("test-user", Reason.ringChanged)] ∧
    (updateAllTenants (testEnv ringOnlyFirst 1) true stateAfterShard1Pass).state.tenants
      = [("test-user", ⟨10, 1, none⟩)] := by
  exact ⟨by decide, by decide, by decide, by decide⟩

/-- Ceiling-division characterization: `(g + snap - 1) / snap` is below `n`
exactly when `g ≤ n * snap`. -/
theorem ceilDiv_le_iff (g snap n : Nat) (h : 0 < snap) :
    (g + snap - 1) / snap ≤ n ↔ g ≤ n * snap := by
  rw [Nat.div_le_iff_le_mul_add_pred h, Nat.mul_comm]
  generalize n * snap = m
  omega

/-- Limiter state after the scale-up pass (zone-1 at five ingesters). -/
def limitStateUp : ServiceState :=
  (updateAllTenants (limitEnv ringScaledUp) true limitState0).state

/-- Limiter state after the scale-down pass (zone-1 back to one ingester). -/
def limitStateDown : ServiceState :=
  (updateAllTenants (limitEnv ringScaledDown) true limitStateUp).state

/-- C1: `local_series_limit` returns the ceiling of
`global_limit / shard_size_snapshot` when the snapshot is positive
(characterized as the least `n` with `global_limit ≤ n * snapshot`), and
`global_limit / max(1, ingesters in the tenant's zone)` when the snapshot is
0.  In the three-zone scenario (3 ingesters per zone, shard size 15, global
limit 10 000) the starting local limit is 3333; after zone-1 is scaled to
five ingesters and a reconciliation pass runs the limit is 2000; after zone-1
is scaled back to one ingester and a pass runs the limit is 10 000. -/
theorem localSeriesLimit_C1 :
    (∀ g snap z : Nat, 0 < snap →
      g ≤ localSeriesLimit g snap z * snap ∧
        ∀ n : Nat, g ≤ n * snap → localSeriesLimit g snap z ≤ n) ∧
    (∀ g z : Nat, localSeriesLimit g 0 z = g / max 1 z) ∧
    tenantLocalLimit (limitEnv ringNine) limitState0 "test-user" = 3333 ∧
    (updateAllTenants (limitEnv ringScaledUp) true limitState0).count = 1 ∧
    tenantLocalLimit (limitEnv ringScaledUp) limitStateUp "test-user" = 2000 ∧
    (updateAllTenants (limitEnv ringScaledDown) true limitStateUp).count = 1 ∧
    tenantLocalLimit (limitEnv ringScaledDown) limitStateDown "test-user" = 10000 := by
  refine ⟨?_, ?_, by decide, by decide, by decide, by decide, by decide⟩
  · intro g snap z h
    have hl : localSeriesLimit g snap z = (g + snap - 1) / snap := by
      simp [localSeriesLimit, h]
    constructor
    · rw [hl]
      exact (ceilDiv_le_iff g snap _ h).mp (Nat.le_refl _)
    · intro n hn
      rw [hl]
      exact (ceilDiv_le_iff g snap n h).mpr hn
  · intro g z
    simp [localSeriesLimit]

/-- Witness for `localSeriesLimit_C1` at global limit 10000 and snapshot 3. -/
theorem localSeriesLimit_C1_witness :
    0 < (3 : Nat) ∧ 10000 ≤ localSeriesLimit 10000 3 0 * 3 :=
  ⟨by decide, (localSeriesLimit_C1.1 10000 3 0 (by decide)).1⟩

/-- Service state after a pass with `ring_changed_hint = true` against the
single-ingester ring: the detector has cached that ring's projection. -/
def stateAfterTruePass : ServiceState :=
  (updateAllTenants (testEnv [firstIngester] 0) true initState).state

/-- C2 counterexample: the relevant ring projection did change after the last
detector check (the second ingester joined), every reason is empty, and yet
`update_all_tenants(false)` returns 0 and recomputes nothing — the claim that
tenants are recomputed on an actual ring change even when the hint is false is
violated by the driver (the detector is consulted only on a true hint, as
`TestOwnedSeriesService` "no ring change after adding ingester" pins down). -/
theorem updateAllTenants_hint_false_counterexample_C2 :
    relevantProjection ringBoth ≠ relevantProjection [firstIngester] ∧
    stateAfterTruePass.detector = ⟨some (relevantProjection [firstIngester])⟩ ∧
    (updateAllTenants (testEnv ringBoth 0) false stateAfterTruePass).count = 0 ∧
    (updateAllTenants (testEnv ringBoth 0) false stateAfterTruePass).state.tenants
      = [("test-user", ⟨10, 0, none⟩)] := by
  exact ⟨by decide, by decide, by decide, by decide⟩

/-- C2 (amended): the driver consults the Ring Change Detector only when the
hint is true; a false hint leaves the detector untouched and triggers no
ring-based recomputation, and a true hint with an unchanged projection
behaves exactly like a false hint. -/
theorem updateAllTenants_hint_gates_detector_C2 :
    (∀ (env : Env) (s : ServiceState),
      updateAllTenants env false s
        = { count := (s.tenants.filter (tenantProcessed env false)).length,
            log := s.tenants.filterMap
              (fun p => (pendingReason env false p.1 p.2).map (fun r => (p.1, r))),
            state := ⟨s.tenants.map (stepTenant env false), s.detector⟩ }) ∧
    (∀ (env : Env) (s : ServiceState),
      s.detector.cached = some (relevantProjection env.ring) →
        updateAllTenants env true s = updateAllTenants env false s) := by
  constructor
  · intro env s
    rfl
  · intro env s h
    have hc : checkRingForChanges s.detector env.ring = (false, s.detector) := by
      unfold checkRingForChanges
      rw [h]
      simp
    show updateAllTenants env true s = updateAllTenants env false s
    unfold updateAllTenants
    rw [hc]
    simp

/-- Witness for `updateAllTenants_hint_gates_detector_C2`: with the projection
cached, a true hint behaves like a false hint. -/
theorem updateAllTenants_hint_gates_detector_C2_witness :
    stateAfterTruePass.detector.cached
        = some (relevantProjection (testEnv [firstIngester] 0).ring) ∧
      updateAllTenants (testEnv [firstIngester] 0) true stateAfterTruePass
        = updateAllTenants (testEnv [firstIngester] 0) false stateAfterTruePass :=
  ⟨by decide, updateAllTenants_hint_gates_detector_C2.2 _ _ (by decide)⟩

/-- Service state after a pass with shard size 2 against the two-ingester
ring. -/
def stateAfterShard2Pass : ServiceState :=
  (updateAllTenants (testEnv ringBoth 2) true initState).state

/-- C6: a tenant whose shuffle shard does not contain this ingester gets
`owned_count = 0` from recomputation; shrinking the shard size from 2 to 1
(leaving the second ingester as sole shard member) makes the next pass return
1 with reason `shard_size_changed`, owned count 0 and snapshot 1. -/
theorem notInShard_owns_zero_C6 :
    (∀ (env : Env) (uid : String),
      env.thisId ∉ shuffleShard env.ring env.thisZone (env.cfg uid)
          (zonesCount env.ring) (env.draws uid) →
        (recomputeOwnedSeries env uid).1 = 0) ∧
    (updateAllTenants (testEnv ringBoth 2) true initState).state.tenants
      = [("test-user", ⟨5, 2, none⟩)] ∧
    (updateAllTenants (testEnv ringBoth 1) true stateAfterShard2Pass).count = 1 ∧
    (updateAllTenants (testEnv ringBoth 1) true stateAfterShard2Pass).log
      = [("test-user", Reason.shardSizeChanged)] ∧
    (updateAllTenants (testEnv ringBoth 1) true stateAfterShard2Pass).state.tenants
      = [("test-user", ⟨0, 1, none⟩)] := by
  refine ⟨?_, by decide, by decide, by decide, by decide⟩
  intro env uid h
  simp [recomputeOwnedSeries, ownedCountOf, h]

/-- Witness for `notInShard_owns_zero_C6`: with shard size 1 the tested
ingester is outside the shard and owns zero series. -/
theorem notInShard_owns_zero_C6_witness :
    (testEnv ringBoth 1).thisId ∉ shuffleShard (testEnv ringBoth 1).ring
        (testEnv ringBoth 1).thisZone ((testEnv ringBoth 1).cfg "test-user")
        (zonesCount (testEnv ringBoth 1).ring) ((testEnv ringBoth 1).draws "test-user") ∧
      (recomputeOwnedSeries (testEnv ringBoth 1) "test-user").1 = 0 :=
  ⟨by decide, notInShard_owns_zero_C6.1 (testEnv ringBoth 1) "test-user" (by decide)⟩

/-- With a false ring-changed flag, a tenant has no pending reason exactly
when its stored reason is empty and its snapshot matches the current effective
shard size. -/
theorem pendingReason_false_none_iff (env : Env) (uid : String) (ts : TenantState) :
    pendingReason env false uid ts = none ↔
      ts.reason = none ∧ effSnap env uid = ts.shardSizeSnapshot := by
  cases hr : ts.reason with
  | some r => simp [pendingReason, hr]
  | none =>
    by_cases h : effSnap env uid = ts.shardSizeSnapshot
    · simp [pendingReason, hr, h]
    · simp [pendingReason, hr, h]

/-- A driver step with a false ring flag leaves every tenant without a pending
reason. -/
theorem stepTenant_false_quiescent (env : Env) (q : String × TenantState) :
    pendingReason env false (stepTenant env false q).1 (stepTenant env false q).2 = none := by
  unfold stepTenant
  cases hq : pendingReason env false q.1 q.2 with
  | none => exact hq
  | some r => simp [pendingReason, recomputeOwnedSeries]

/-- A pass with a false hint over tenants with no pending reason returns 0 and
changes nothing. -/
theorem updateAllTenants_false_of_pending_none (env : Env) (s : ServiceState)
    (h : ∀ p ∈ s.tenants, pendingReason env false p.1 p.2 = none) :
    updateAllTenants env false s = ⟨0, [], s⟩ := by
  have h1 : s.tenants.filter (tenantProcessed env false) = [] := by
    rw [List.filter_eq_nil_iff]
    intro p hp
    simp [tenantProcessed, h p hp]
  have h2 : ∀ l : List (String × TenantState),
      (∀ p ∈ l, pendingReason env false p.1 p.2 = none) →
      l.filterMap (fun p => (pendingReason env false p.1 p.2).map (fun r => (p.1, r))) = [] := by
    intro l
    induction l with
    | nil => intro _; rfl
    | cons q qs ih =>
      intro hl
      simp only [List.filterMap_cons]
      rw [hl q (List.mem_cons_self q qs)]
      exact ih (fun p hp => hl p (List.mem_cons_of_mem _ hp))
  have h3 : s.tenants.map (stepTenant env false) = s.tenants := by
    have := List.map_congr_left (l := s.tenants) (f := stepTenant env false) (g := id)
      (fun p hp => by simp [stepTenant, h p hp])
    rw [this, List.map_id]
  have hu : updateAllTenants env false s
      = ⟨(s.tenants.filter (tenantProcessed env false)).length,
          s.tenants.filterMap
            (fun p => (pendingReason env false p.1 p.2).map (fun r => (p.1, r))),
          ⟨s.tenants.map (stepTenant env false), s.detector⟩⟩ := rfl
  rw [hu, h1, h2 s.tenants h, h3]
  rfl

/-- C7: `update_all_tenants(false)` with every reason empty and every snapshot
matching the configuration returns 0 and mutates nothing; consequently two
back-to-back passes with no intervening trigger, ring change, or write leave
every tenant's `(owned_count, shard_size_snapshot)` identical (the second
pass is a no-op). -/
theorem quiescent_pass_idempotent_C7 :
    (∀ (env : Env) (s : ServiceState),
      (∀ p ∈ s.tenants, p.2.reason = none ∧ effSnap env p.1 = p.2.shardSizeSnapshot) →
        updateAllTenants env false s = ⟨0, [], s⟩) ∧
    (∀ (env : Env) (s : ServiceState),
      updateAllTenants env false ((updateAllTenants env false s).state)
        = ⟨0, [], (updateAllTenants env false s).state⟩) := by
  constructor
  · intro env s h
    exact updateAllTenants_false_of_pending_none env s
      (fun p hp => (pendingReason_false_none_iff env p.1 p.2).mpr (h p hp))
  · intro env s
    refine updateAllTenants_false_of_pending_none env _ ?_
    intro p hp
    have hm : p ∈ s.tenants.map (stepTenant env false) := hp
    obtain ⟨q, _, hq⟩ := List.mem_map.mp hm
    rw [← hq]
    exact stepTenant_false_quiescent env q

/-- Witness for `quiescent_pass_idempotent_C7`: the state after the new-user
pass is quiescent, and a hint-false pass on it is a no-op. -/
theorem quiescent_pass_idempotent_C7_witness :
    (∀ p ∈ stateAfterNewUserPass.tenants,
        p.2.reason = none ∧
          effSnap (testEnv [firstIngester] 0) p.1 = p.2.shardSizeSnapshot) ∧
      updateAllTenants (testEnv [firstIngester] 0) false stateAfterNewUserPass
        = ⟨0, [], stateAfterNewUserPass⟩ :=
  ⟨by decide, quiescent_pass_idempotent_C7.1 _ _ (by decide)⟩

/-- The relevant projection ignores instance states. -/
theorem relevantProjection_map_state (r : RingDesc) (f : Instance → InstState) :
    relevantProjection (r.map (fun i => { i with state := f i })) = relevantProjection r := by
  unfold relevantProjection
  rw [List.map_map]
  rfl

/-- The relevant projection has one triple per ring instance. -/
theorem relevantProjection_card (r : RingDesc) :
    Multiset.card (relevantProjection r) = r.length := by
  simp [relevantProjection]

/-- Filtering out an absent element keeps the whole list. -/
theorem length_filter_lt_of_mem {α : Type} (p : α → Bool) :
    ∀ (l : List α) (a : α), a ∈ l → p a = false → (l.filter p).length < l.length := by
  intro l
  induction l with
  | nil => simp
  | cons b l ih =>
    intro a ha hpa
    rcases List.mem_cons.mp ha with h | h
    · subst h
      rw [List.filter_cons, hpa]
      simp only [Bool.false_eq_true, if_false, List.length_cons]
      exact Nat.lt_succ_of_le (List.length_filter_le p l)
    · cases hpb : p b with
      | false =>
        rw [List.filter_cons, hpb]
        simp only [Bool.false_eq_true, if_false, List.length_cons]
        exact Nat.lt_succ_of_lt (ih a h hpa)
      | true =>
        rw [List.filter_cons, hpb]
        simp only [if_true, List.length_cons]
        exact Nat.succ_lt_succ (ih a h hpa)

/-- C9: against a cached projection, a ring update that alters only instance
states (keeping every `(id, zone, tokens)` triple) makes `check()` return
false, while adding a fresh instance or removing a present one changes the
set of triples and makes `check()` return true. -/
theorem detector_projection_C9 :
    (∀ (r : RingDesc) (f : Instance → InstState),
      (checkRingForChanges ⟨some (relevantProjection r)⟩
        (r.map (fun i => { i with state := f i }))).1 = false) ∧
    (∀ (r : RingDesc) (i : Instance), (∀ j ∈ r, j.id ≠ i.id) →
      (checkRingForChanges ⟨some (relevantProjection r)⟩ (addIngester r i)).1 = true) ∧
    (∀ (r : RingDesc) (i : Instance), i ∈ r →
      (checkRingForChanges ⟨some (relevantProjection r)⟩ (removeIngester r i.id)).1 = true) := by
  refine ⟨?_, ?_, ?_⟩
  · intro r f
    simp [checkRingForChanges, relevantProjection_map_state]
  · intro r i h
    have hfilter : r.filter (fun j => decide (j.id ≠ i.id)) = r :=
      List.filter_eq_self.mpr (fun a ha => by simpa using h a ha)
    have hne : relevantProjection (addIngester r i) ≠ relevantProjection r := by
      intro he
      have hcard := congrArg Multiset.card he
      rw [relevantProjection_card, relevantProjection_card] at hcard
      unfold addIngester at hcard
      rw [hfilter] at hcard
      simp at hcard
    simp [checkRingForChanges, hne]
  · intro r i h
    have hlt : (removeIngester r i.id).length < r.length := by
      unfold removeIngester
      exact length_filter_lt_of_mem _ r i h (by simp)
    have hne : relevantProjection (removeIngester r i.id) ≠ relevantProjection r := by
      intro he
      have hcard := congrArg Multiset.card he
      rw [relevantProjection_card, relevantProjection_card] at hcard
      omega
    simp [checkRingForChanges, hne]

/-- Witness for `detector_projection_C9`: adding the second ingester to the
single-ingester ring is reported as a change. -/
theorem detector_projection_C9_witness :
    (∀ j ∈ [firstIngester], j.id ≠ secondIngester.id) ∧
      (checkRingForChanges ⟨some (relevantProjection [firstIngester])⟩
        (addIngester [firstIngester] secondIngester)).1 = true :=
  ⟨by decide, detector_projection_C9.2.1 [firstIngester] secondIngester (by decide)⟩

end OwnedSeries
